import Mathlib

/-!
# Verification of the snake-game round engine

Shallow embedding of the simulation core found in `snake.py`, `bomb.py`,
`apple.py` and `game.py` (class `GameBoard`), together with theorems settling
the specification claims about it.

Modelling conventions:
* a grid cell is a pair of integers `(x, y)`;
* Python `int` counters that the data model constrains to be nonnegative
  (`_grow_turns`, `turns_until_boom`, `current_radius`, `max_radius`) are `ℕ`;
  scores and coordinates are `ℤ`;
* the grid dimensions `WIDTH`/`HEIGHT` come from the external
  `game_parameters` module and are passed as explicit parameters `W H : ℤ`;
* the random draws of `game_parameters.get_random_bomb_data` /
  `get_random_apple_data` are modelled as explicit lists of candidate draws;
  the reject-and-redraw loops return `none` when the list is exhausted
  (standing for the nontermination of the Python retry loop);
* Python list operations: `cells[-1]` is `getLastD` (Python raises on an empty
  list; every state the claims touch has a nonempty snake), `pop(0)` is
  `tail`, `append` is `++ [·]`, `remove` is `erase` (Python removes by object
  identity; for `Apple` values this coincides with structural erasure in all
  the situations the claims quantify over, and the difference is noted where
  it matters);
* Python `for` loops that mutate the list being iterated (`apples.remove`
  inside `for apple in self.apples`) are embedded by their index-based
  iterator semantics: the iterator keeps an index into the shrinking list,
  so a removal shifts the subsequent elements one slot left under the cursor.
-/

/-- A board cell `(x, y)`, as in `game_parameters.CELL_TYPE`. -/
abbrev CELL : Type := ℤ × ℤ

/-- The four direction tokens `LEFT`, `RIGHT`, `UP`, `DOWN` of `snake.py`. -/
inductive Direction : Type
  | left
  | right
  | up
  | down
deriving DecidableEq, Repr

open Direction

/-- Python `LEGAL_DIRECTIONS` of `snake.py`: the directions each direction may be
changed to (only the two perpendicular ones). -/
def LEGAL_DIRECTIONS : Direction → List Direction
  | Direction.left => [Direction.up, Direction.down]
  | Direction.right => [Direction.up, Direction.down]
  | Direction.down => [Direction.left, Direction.right]
  | Direction.up => [Direction.left, Direction.right]

/-- Python `DIRECTION_VECTORS` of `snake.py`: the unit step of each direction. -/
def DIRECTION_VECTORS : Direction → CELL
  | Direction.left => (-1, 0)
  | Direction.right => (1, 0)
  | Direction.up => (0, 1)
  | Direction.down => (0, -1)

/-- The `Snake` class of `snake.py`: occupied cells ordered tail to head, the
facing direction, and the pending-growth counter `_grow_turns`. -/
structure Snake : Type where
  cells : List CELL
  direction : Direction
  grow_turns : ℕ
deriving DecidableEq, Repr

/-- Python `Snake.head`: `self.cells[-1]`.  Python raises `IndexError` on an empty
list; the default value stands in for that (never reached in the claims). -/
def Snake.head (s : Snake) : CELL := s.cells.getLastD (0, 0)

/-- Python `Snake.change_direction`: adopt the requested direction only when it is in
`LEGAL_DIRECTIONS[self._direction]`; `None` (and any other key) is ignored. -/
def Snake.change_direction (s : Snake) (d : Option Direction) : Snake :=
  match d with
  | some d' => if d' ∈ LEGAL_DIRECTIONS s.direction then { s with direction := d' } else s
  | none => s

/-- Python `Snake.shorten_tail`: decrement `_grow_turns` if positive, else
`self.cells.pop(0)`. -/
def Snake.shorten_tail (s : Snake) : Snake :=
  if s.grow_turns > 0 then { s with grow_turns := s.grow_turns - 1 }
  else { s with cells := s.cells.tail }

/-- Python `Snake.get_new_head`: the head offset by the current direction vector. -/
def Snake.get_new_head (s : Snake) : CELL :=
  ((s.head).1 + (DIRECTION_VECTORS s.direction).1,
   (s.head).2 + (DIRECTION_VECTORS s.direction).2)

/-- Python `Snake.advance_head`: `self.cells.append(self.get_new_head())`. -/
def Snake.advance_head (s : Snake) : Snake :=
  { s with cells := s.cells ++ [s.get_new_head] }

/-- Python `Snake.grow`: `self._grow_turns += amount` (contract: `amount ≥ 0`). -/
def Snake.grow (s : Snake) (amount : ℕ) : Snake :=
  { s with grow_turns := s.grow_turns + amount }

/-- The `Bomb` class of `bomb.py`, fields in their `__init__` assignment
order; `current_radius` starts at `0`. -/
structure Bomb : Type where
  cell : CELL
  max_radius : ℕ
  turns_until_boom : ℕ
  current_radius : ℕ
deriving DecidableEq, Repr

/-- The list `[a, a+1, ..., b-1]` of integers: Python `range(a, b)`. -/
def intRange (a b : ℤ) : List ℤ :=
  (List.range (b - a).toNat).map (fun (k : ℕ) => a + (k : ℤ))

/-- Python `Bomb.get_blast_cells`: empty before detonation; once
`turns_until_boom == 0`, the cells of the square around the origin whose
Manhattan distance from it is exactly `current_radius` (outer loop on `j`,
inner on `i`, as in the Python comprehension). -/
def Bomb.get_blast_cells (bm : Bomb) : List CELL :=
  if bm.turns_until_boom > 0 then []
  else
    (intRange (bm.cell.2 - (bm.current_radius : ℤ)) (bm.cell.2 + (bm.current_radius : ℤ) + 1)).flatMap
      (fun j =>
        ((intRange (bm.cell.1 - (bm.current_radius : ℤ)) (bm.cell.1 + (bm.current_radius : ℤ) + 1)).filter
          (fun i => |bm.cell.1 - i| + |bm.cell.2 - j| = (bm.current_radius : ℤ))).map
          (fun i => (i, j)))

/-- Python `Bomb.get_bomb_cells`: the origin while the timer is still running. -/
def Bomb.get_bomb_cells (bm : Bomb) : List CELL :=
  if bm.turns_until_boom > 0 then [bm.cell] else []

/-- Python `Bomb.get_all_cells`: blast cells then bomb cell. -/
def Bomb.get_all_cells (bm : Bomb) : List CELL :=
  bm.get_blast_cells ++ bm.get_bomb_cells

/-- Python `Bomb.is_done`: `self.current_radius >= self.max_radius`. -/
def Bomb.is_done (bm : Bomb) : Bool :=
  bm.max_radius ≤ bm.current_radius

/-- Python `Bomb.advance`: tick the timer while armed, else widen the blast ring. -/
def Bomb.advance (bm : Bomb) : Bomb :=
  if bm.turns_until_boom > 0 then { bm with turns_until_boom := bm.turns_until_boom - 1 }
  else { bm with current_radius := bm.current_radius + 1 }

/-- The `Apple` class of `apple.py`: a cell and a score value. -/
structure Apple : Type where
  cell : CELL
  score : ℤ
deriving DecidableEq, Repr

/-- Constant `NUMBER_OF_APPLES` of `game.py`. -/
def NUMBER_OF_APPLES : ℕ := 3

/-- Constant `INITIAL_SNAKE_CELLS` of `game.py`. -/
def INITIAL_SNAKE_CELLS : List CELL := [(10, 8), (10, 9), (10, 10)]

/-- Constant `APPLE_GROW_SIZE` of `game.py`. -/
def APPLE_GROW_SIZE : ℕ := 3

/-- Constant `INITIAL_SNAKE_DIRECTION` of `game.py` (`UP`). -/
def INITIAL_SNAKE_DIRECTION : Direction := Direction.up

/-- The mutable state of the `GameBoard` class of `game.py`. -/
structure GameBoard : Type where
  snake : Snake
  bomb : Bomb
  apples : List Apple
  score : ℤ
  should_quit : Bool
  new_score_available : Bool
deriving DecidableEq, Repr

/-- Python `GameBoard.__is_cell_legal`: inside the `WIDTH × HEIGHT` grid. -/
def is_cell_legal (W H : ℤ) (c : CELL) : Bool :=
  decide (0 ≤ c.1) && decide (c.1 < W) && decide (0 ≤ c.2) && decide (c.2 < H)

/-- Python `GameBoard.__validate_cells_empty`: every given cell is on the grid and
not occupied by the snake, an apple or (when `including_bomb`) the bomb. -/
def validate_cells_empty (W H : ℤ) (b : GameBoard) (cells : List CELL)
    (including_bomb : Bool) : Bool :=
  let full_cells := b.snake.cells ++ b.apples.map (fun a => a.cell) ++
    (if including_bomb then b.bomb.get_all_cells else [])
  cells.all (fun c => is_cell_legal W H c && !(full_cells.contains c))

/-- Python `GameBoard.__is_board_full`: combined footprint size reaches the grid
area. -/
def is_board_full (W H : ℤ) (b : GameBoard) : Bool :=
  decide (W * H ≤ (b.snake.cells.length : ℤ) + (b.apples.length : ℤ) +
    (b.bomb.get_all_cells.length : ℤ))

/-- One draw of `game_parameters.get_random_bomb_data()`:
`(x, y, max_radius, turns_until_boom)`. -/
structure BombData : Type where
  x : ℤ
  y : ℤ
  max_radius : ℕ
  turns_until_boom : ℕ
deriving DecidableEq, Repr

/-- The bomb `Bomb((x, y), turns_until_boom, max_radius)` built from one draw. -/
def bomb_from_data (d : BombData) : Bomb :=
  { cell := (d.x, d.y), max_radius := d.max_radius,
    turns_until_boom := d.turns_until_boom, current_radius := 0 }

/-- Python `GameBoard.__randomize_bomb`: keep drawing until a draw whose cell passes
`__validate_cells_empty` with `including_bomb=False`; `none` when the supplied
draws run out (the Python loop would keep drawing forever). -/
def randomize_bomb (W H : ℤ) (b : GameBoard) : List BombData → Option Bomb
  | [] => none
  | d :: rest =>
    let bomb := bomb_from_data d
    if validate_cells_empty W H b [bomb.cell] false then some bomb
    else randomize_bomb W H b rest

/-- One draw of `game_parameters.get_random_apple_data()`: `(x, y, score)`. -/
structure AppleData : Type where
  x : ℤ
  y : ℤ
  score : ℤ
deriving DecidableEq, Repr

/-- Python `GameBoard.__randomize_apple`: keep drawing until a draw whose cell passes
`__validate_cells_empty` (bomb included); returns the apple and the unused
remainder of the draw list. -/
def randomize_apple (W H : ℤ) (b : GameBoard) :
    List AppleData → Option (Apple × List AppleData)
  | [] => none
  | d :: rest =>
    let apple : Apple := { cell := (d.x, d.y), score := d.score }
    if validate_cells_empty W H b [apple.cell] true then some (apple, rest)
    else randomize_apple W H b rest

/-- The `while len(self.apples) < NUMBER_OF_APPLES` loop of
`GameBoard.__generate_apples`, with fuel: every iteration either returns or
appends one apple, so `NUMBER_OF_APPLES` iterations always suffice. -/
def generate_apples_loop (W H : ℤ) : ℕ → List AppleData → GameBoard → Option GameBoard
  | 0, _, b => if b.apples.length < NUMBER_OF_APPLES then none else some b
  | fuel + 1, draws, b =>
    if b.apples.length < NUMBER_OF_APPLES then
      if is_board_full W H b then some { b with should_quit := true }
      else
        match randomize_apple W H b draws with
        | none => none
        | some (a, rest) =>
          generate_apples_loop W H fuel rest { b with apples := b.apples ++ [a] }
    else some b

/-- Python `GameBoard.__generate_apples`. -/
def generate_apples (W H : ℤ) (draws : List AppleData) (b : GameBoard) :
    Option GameBoard :=
  generate_apples_loop W H NUMBER_OF_APPLES draws b

/-- The apple-eating `for apple in self.apples` loop of
`GameBoard.__update_snake_head` (lines 190-195 of `game.py`), with Python's
index-based iterator semantics: `i` is the iterator cursor into the list as it
is being mutated, and `self.apples.remove(apple)` shifts later elements left.
The fuel is the initial list length, which bounds the iteration count since
the cursor advances every step and the list never grows. -/
def eat_apples (nh : CELL) : ℕ → ℕ → GameBoard → GameBoard
  | 0, _, b => b
  | fuel + 1, i, b =>
    if h : i < b.apples.length then
      if (b.apples[i]).cell = nh then
        eat_apples nh fuel (i + 1)
          { b with score := b.score + (b.apples[i]).score,
                   new_score_available := true,
                   apples := b.apples.erase (b.apples[i]),
                   snake := b.snake.grow APPLE_GROW_SIZE }
      else eat_apples nh fuel (i + 1) b
    else b

/-- Python `GameBoard.__update_snake_head`: shorten the tail, compute the next head,
terminate on wall/self/bomb collision, otherwise run the apple loop and
commit the advance. -/
def update_snake_head (W H : ℤ) (b : GameBoard) : GameBoard :=
  let s1 := b.snake.shorten_tail
  let b1 := { b with snake := s1 }
  let new_head := s1.get_new_head
  if !(is_cell_legal W H new_head) || s1.cells.contains new_head ||
      b.bomb.get_all_cells.contains new_head then
    { b1 with should_quit := true }
  else
    let b2 := eat_apples new_head b1.apples.length 0 b1
    { b2 with snake := b2.snake.advance_head }

/-- The inner `for apple in self.apples: ... self.apples.remove(apple)` loop
of `GameBoard.__update_bomb`, with the same index-based iterator semantics as
`eat_apples`. -/
def destroy_apples (c : CELL) : ℕ → ℕ → List Apple → List Apple
  | 0, _, apples => apples
  | fuel + 1, i, apples =>
    if h : i < apples.length then
      if apples[i].cell = c then destroy_apples c fuel (i + 1) (apples.erase apples[i])
      else destroy_apples c fuel (i + 1) apples
    else apples

/-- The second `for cell in self.bomb.get_all_cells()` loop of
`GameBoard.__update_bomb`: terminate on a snake hit, else destroy coincident
apples (the cell list was computed before the loop and is not mutated). -/
def bomb_hits : List CELL → GameBoard → GameBoard
  | [], b => b
  | c :: rest, b =>
    if b.snake.cells.contains c then { b with should_quit := true }
    else bomb_hits rest { b with apples := destroy_apples c b.apples.length 0 b.apples }

/-- Python `GameBoard.__update_bomb`: replace a spent bomb; otherwise advance it,
replace it if any danger cell left the grid, else resolve snake/apple hits. -/
def update_bomb (W H : ℤ) (draws : List BombData) (b : GameBoard) :
    Option GameBoard :=
  if b.bomb.is_done then
    (randomize_bomb W H b draws).map (fun nb => { b with bomb := nb })
  else
    let b1 := { b with bomb := b.bomb.advance }
    if b1.bomb.get_all_cells.any (fun c => !(is_cell_legal W H c)) then
      (randomize_bomb W H b1 draws).map (fun nb => { b1 with bomb := nb })
    else some (bomb_hits b1.bomb.get_all_cells b1)

/-- Python `GameBoard.execute_round`: direction change, snake movement, bomb update,
apple replenishment, each later step skipped once `should_quit` holds. -/
def execute_round (W H : ℤ) (bombDraws : List BombData) (appleDraws : List AppleData)
    (key : Option Direction) (b : GameBoard) : Option GameBoard :=
  let b1 := { b with snake := b.snake.change_direction key }
  let b2 := update_snake_head W H b1
  if b2.should_quit then some b2
  else
    (update_bomb W H bombDraws b2).bind (fun b3 =>
      if b3.should_quit then some b3
      else generate_apples W H appleDraws b3)

/-- Python `GameBoard.get_new_score`: the score when the dirty flag is set (clearing
it), `None` otherwise.  Returns the reported value and the updated board. -/
def get_new_score (b : GameBoard) : Option ℤ × GameBoard :=
  if b.new_score_available then (some b.score, { b with new_score_available := false })
  else (none, b)

/-- Python `GameBoard.__init__`: fixed initial snake, a randomized bomb (validated
with `including_bomb=False`, so the placeholder bomb of `b0` is never read),
apple replenishment, and then the assignments `score = 0`,
`should_quit = False`, `new_score_available = True`, which in the Python
source run *after* `__generate_apples` and overwrite anything it set. -/
def initial_board (W H : ℤ) (bombDraws : List BombData) (appleDraws : List AppleData) :
    Option GameBoard :=
  let b0 : GameBoard :=
    { snake := { cells := INITIAL_SNAKE_CELLS, direction := INITIAL_SNAKE_DIRECTION,
                 grow_turns := 0 },
      bomb := { cell := (0, 0), max_radius := 0, turns_until_boom := 0,
                current_radius := 0 },
      apples := [], score := 0, should_quit := false, new_score_available := true }
  (randomize_bomb W H b0 bombDraws).bind (fun bomb =>
    (generate_apples W H appleDraws { b0 with bomb := bomb }).map (fun b1 =>
      { b1 with score := 0, should_quit := false, new_score_available := true }))

/-- The boards reachable from an initial board by rounds none of which left
the terminal flag set, for arbitrary random draws and inputs. -/
inductive Reachable (W H : ℤ) : GameBoard → Prop
  | init (bd : List BombData) (ad : List AppleData) (b : GameBoard)
      (hb : initial_board W H bd ad = some b) : Reachable W H b
  | step (b : GameBoard) (bd : List BombData) (ad : List AppleData)
      (k : Option Direction) (b' : GameBoard) (hr : Reachable W H b)
      (hs : execute_round W H bd ad k b = some b')
      (hq : b'.should_quit = false) : Reachable W H b'

/-- A concrete already-terminated board used to settle C1. -/
def terminatedBoard : GameBoard :=
  { snake := { cells := [(10, 8), (10, 9), (10, 10)], direction := Direction.up,
               grow_turns := 0 },
    bomb := { cell := (0, 0), max_radius := 3, turns_until_boom := 10,
              current_radius := 0 },
    apples := [], score := 0, should_quit := true, new_score_available := false }

/-- A concrete board holding a freshly spawned bomb with `max_radius = 0` and
five turns left on its timer. -/
def maxZeroBoard : GameBoard :=
  { snake := { cells := [(10, 8), (10, 9), (10, 10)], direction := Direction.up,
               grow_turns := 0 },
    bomb := { cell := (5, 5), max_radius := 0, turns_until_boom := 5,
              current_radius := 0 },
    apples := [], score := 0, should_quit := false, new_score_available := false }

/-- A concrete board about to move into the cell its tail vacates. -/
def tailChaseBoard : GameBoard :=
  { snake := { cells := [(0, 0), (0, 1)], direction := Direction.down, grow_turns := 0 },
    bomb := { cell := (15, 15), max_radius := 3, turns_until_boom := 10,
              current_radius := 0 },
    apples := [], score := 0, should_quit := false, new_score_available := false }

/-- A concrete board one fatal move from the wall: the snake's head is at
`(0, 0)` facing down, so the next head `(0, -1)` is off-grid. -/
def fatalBoard : GameBoard :=
  { snake := { cells := [(0, 1), (0, 0)], direction := Direction.down, grow_turns := 0 },
    bomb := { cell := (15, 15), max_radius := 3, turns_until_boom := 10,
              current_radius := 0 },
    apples := [], score := 0, should_quit := false, new_score_available := false }

/-- The snake component of one legal round: the direction change followed by
`shorten_tail` and `advance_head`, exactly the calls
`GameBoard.execute_round` makes on the snake when the move is legal. -/
def snake_round (k : Option Direction) (s : Snake) : Snake :=
  ((s.change_direction k).shorten_tail).advance_head

/-- Iterating `snake_round` over a list of per-round inputs. -/
def run_rounds (ks : List (Option Direction)) (s : Snake) : Snake :=
  ks.foldl (fun s k => snake_round k s) s

/-- A concrete two-cell snake used as the C5 witness. -/
def growSnake : Snake :=
  { cells := [(0, 0), (0, 1)], direction := Direction.up, grow_turns := 0 }

/-- A concrete board with two distinct-celled apples. -/
def appleBoard : GameBoard :=
  { snake := { cells := [(10, 8), (10, 9), (10, 10)], direction := Direction.up,
               grow_turns := 0 },
    bomb := { cell := (0, 0), max_radius := 3, turns_until_boom := 10,
              current_radius := 0 },
    apples := [{ cell := (3, 3), score := 7 }, { cell := (10, 11), score := 5 }],
    score := 0, should_quit := false, new_score_available := false }

/-- A one-cell grid whose only cell is occupied: the board is full. -/
def fullBoard : GameBoard :=
  { snake := { cells := [(0, 0)], direction := Direction.up, grow_turns := 0 },
    bomb := { cell := (0, 0), max_radius := 1, turns_until_boom := 5,
              current_radius := 0 },
    apples := [], score := 0, should_quit := false, new_score_available := false }

/-- A board with one apple and room to spawn more. -/
def genBoard : GameBoard :=
  { snake := { cells := [(10, 8), (10, 9), (10, 10)], direction := Direction.up,
               grow_turns := 0 },
    bomb := { cell := (0, 0), max_radius := 3, turns_until_boom := 10,
              current_radius := 0 },
    apples := [{ cell := (3, 3), score := 7 }],
    score := 0, should_quit := false, new_score_available := false }

/-- The board `genBoard` after replenishment with the draws `(1,1,2)` and `(2,2,2)`. -/
def genBoardAfter : GameBoard :=
  { genBoard with
    apples := [{ cell := (3, 3), score := 7 }, { cell := (1, 1), score := 2 },
               { cell := (2, 2), score := 2 }] }

/-- The board built by `initial_board 20 20` with one bomb draw at the origin
and three apple draws. -/
def startBoard : GameBoard :=
  { snake := { cells := INITIAL_SNAKE_CELLS, direction := INITIAL_SNAKE_DIRECTION,
               grow_turns := 0 },
    bomb := { cell := (0, 0), max_radius := 3, turns_until_boom := 10,
              current_radius := 0 },
    apples := [{ cell := (1, 1), score := 2 }, { cell := (2, 2), score := 2 },
               { cell := (3, 3), score := 2 }],
    score := 0, should_quit := false, new_score_available := true }

/-- The board `appleBoard` after one round in which the snake eats the apple at
`(10, 11)`. -/
def appleBoardAfter : GameBoard :=
  { snake := { cells := [(10, 9), (10, 10), (10, 11)], direction := Direction.up,
               grow_turns := 3 },
    bomb := { cell := (0, 0), max_radius := 3, turns_until_boom := 9,
              current_radius := 0 },
    apples := [{ cell := (3, 3), score := 7 }, { cell := (1, 1), score := 2 },
               { cell := (2, 2), score := 2 }],
    score := 5, should_quit := false, new_score_available := true }

/-! ## Basic facts about the entity operations -/

/-- Manhattan distance between two cells. -/
def manhattan (c d : CELL) : ℤ := |c.1 - d.1| + |c.2 - d.2|

theorem change_direction_cells (s : Snake) (k : Option Direction) :
    (s.change_direction k).cells = s.cells := by
  cases k with
  | none => rfl
  | some d =>
    simp only [Snake.change_direction]
    split <;> rfl

theorem change_direction_grow (s : Snake) (k : Option Direction) :
    (s.change_direction k).grow_turns = s.grow_turns := by
  cases k with
  | none => rfl
  | some d =>
    simp only [Snake.change_direction]
    split <;> rfl

theorem shorten_tail_of_grow_zero (s : Snake) (h : s.grow_turns = 0) :
    s.shorten_tail = { s with cells := s.cells.tail } := by
  unfold Snake.shorten_tail
  simp [h]

theorem shorten_tail_of_grow_pos (s : Snake) (h : 0 < s.grow_turns) :
    s.shorten_tail = { s with grow_turns := s.grow_turns - 1 } := by
  unfold Snake.shorten_tail
  simp [h]

theorem mem_intRange (a b z : ℤ) : z ∈ intRange a b ↔ a ≤ z ∧ z < b := by
  constructor
  · intro h
    obtain ⟨k, hk, hz⟩ := List.mem_map.mp h
    rw [List.mem_range] at hk
    omega
  · rintro ⟨h1, h2⟩
    refine List.mem_map.mpr ⟨(z - a).toNat, List.mem_range.mpr (by omega), by omega⟩

theorem mem_get_blast_cells (bm : Bomb) (c : CELL) :
    c ∈ bm.get_blast_cells ↔
      bm.turns_until_boom = 0 ∧ manhattan c bm.cell = (bm.current_radius : ℤ) := by
  obtain ⟨cx, cy⟩ := c
  unfold Bomb.get_blast_cells
  split
  · simp only [List.not_mem_nil, false_iff, not_and]
    omega
  · rename_i ht
    have ht0 : bm.turns_until_boom = 0 := by omega
    simp only [List.mem_flatMap, List.mem_map, List.mem_filter, mem_intRange,
      decide_eq_true_eq, ht0, true_and, manhattan, Prod.mk.injEq]
    constructor
    · rintro ⟨j, hj, i, ⟨hi, habs⟩, rfl, rfl⟩
      rw [abs_sub_comm i, abs_sub_comm j]
      exact habs
    · intro h
      have h1 : |bm.cell.1 - cx| + |bm.cell.2 - cy| = (bm.current_radius : ℤ) := by
        rw [abs_sub_comm bm.cell.1, abs_sub_comm bm.cell.2]
        exact h
      have ha := abs_nonneg (bm.cell.1 - cx)
      have hb := abs_nonneg (bm.cell.2 - cy)
      have ha2 : |bm.cell.1 - cx| ≤ (bm.current_radius : ℤ) := by linarith
      have hb2 : |bm.cell.2 - cy| ≤ (bm.current_radius : ℤ) := by linarith
      obtain ⟨ha3, ha4⟩ := abs_le.mp ha2
      obtain ⟨hb3, hb4⟩ := abs_le.mp hb2
      refine ⟨cy, ⟨by linarith, by linarith⟩, cx, ⟨⟨⟨by linarith, by linarith⟩, h1⟩, rfl, rfl⟩⟩

/-! ## Preservation lemmas for the engine steps -/

theorem eat_apples_fields (nh : CELL) (fuel : ℕ) :
    ∀ (i : ℕ) (b : GameBoard),
      (eat_apples nh fuel i b).snake.cells = b.snake.cells ∧
      (eat_apples nh fuel i b).snake.direction = b.snake.direction ∧
      (eat_apples nh fuel i b).bomb = b.bomb ∧
      (eat_apples nh fuel i b).should_quit = b.should_quit := by
  induction fuel with
  | zero => intro i b; exact ⟨rfl, rfl, rfl, rfl⟩
  | succ fuel ih =>
    intro i b
    unfold eat_apples
    split
    · split
      · obtain ⟨h1, h2, h3, h4⟩ := ih (i + 1)
          { b with score := b.score + (b.apples[i]).score, new_score_available := true,
                   apples := b.apples.erase b.apples[i],
                   snake := b.snake.grow APPLE_GROW_SIZE }
        exact ⟨h1, h2, h3, h4⟩
      · exact ih (i + 1) b
    · exact ⟨rfl, rfl, rfl, rfl⟩

theorem eat_apples_flag_mono (nh : CELL) (fuel : ℕ) :
    ∀ (i : ℕ) (b : GameBoard), b.new_score_available = true →
      (eat_apples nh fuel i b).new_score_available = true := by
  induction fuel with
  | zero => intro i b h; exact h
  | succ fuel ih =>
    intro i b h
    unfold eat_apples
    split
    · split
      · exact ih (i + 1) _ rfl
      · exact ih (i + 1) b h
    · exact h

theorem eat_apples_score_change (nh : CELL) (fuel : ℕ) :
    ∀ (i : ℕ) (b : GameBoard), (eat_apples nh fuel i b).score ≠ b.score →
      (eat_apples nh fuel i b).new_score_available = true := by
  induction fuel with
  | zero => intro i b h; exact absurd rfl h
  | succ fuel ih =>
    intro i b h
    rw [eat_apples] at h ⊢
    split at h
    · split at h
      · rename_i h1 h2
        rw [dif_pos h1, if_pos h2]
        exact eat_apples_flag_mono nh fuel (i + 1) _ rfl
      · rename_i h1 h2
        rw [dif_pos h1, if_neg h2]
        exact ih (i + 1) b h
    · exact absurd rfl h

theorem update_snake_head_bomb (W H : ℤ) (b : GameBoard) :
    (update_snake_head W H b).bomb = b.bomb := by
  unfold update_snake_head
  dsimp only
  split
  · rfl
  · exact (eat_apples_fields _ _ 0 _).2.2.1

theorem update_snake_head_quit_mono (W H : ℤ) (b : GameBoard)
    (h : b.should_quit = true) : (update_snake_head W H b).should_quit = true := by
  unfold update_snake_head
  dsimp only
  split
  · rfl
  · rw [(eat_apples_fields _ _ 0 _).2.2.2]
    exact h

theorem update_snake_head_score_change (W H : ℤ) (b : GameBoard)
    (h : (update_snake_head W H b).score ≠ b.score) :
    (update_snake_head W H b).new_score_available = true := by
  rw [update_snake_head] at h ⊢
  dsimp only at h ⊢
  split at h
  · exact absurd rfl h
  · rename_i hguard
    rw [if_neg hguard]
    exact eat_apples_score_change _ _ 0 _ h

theorem bomb_hits_fields (cs : List CELL) :
    ∀ b : GameBoard,
      (bomb_hits cs b).snake = b.snake ∧ (bomb_hits cs b).bomb = b.bomb ∧
      (bomb_hits cs b).score = b.score ∧
      (bomb_hits cs b).new_score_available = b.new_score_available := by
  induction cs with
  | nil => intro b; exact ⟨rfl, rfl, rfl, rfl⟩
  | cons c rest ih =>
    intro b
    unfold bomb_hits
    split
    · exact ⟨rfl, rfl, rfl, rfl⟩
    · exact ih _

theorem update_bomb_fields (W H : ℤ) (draws : List BombData) (b b' : GameBoard)
    (h : update_bomb W H draws b = some b') :
    b'.snake = b.snake ∧ b'.score = b.score ∧
    b'.new_score_available = b.new_score_available := by
  rw [update_bomb] at h
  dsimp only at h
  split at h
  · obtain ⟨nb, hnb, rfl⟩ := Option.map_eq_some'.mp h
    exact ⟨rfl, rfl, rfl⟩
  · split at h
    · obtain ⟨nb, hnb, rfl⟩ := Option.map_eq_some'.mp h
      exact ⟨rfl, rfl, rfl⟩
    · obtain rfl := Option.some.inj h
      obtain ⟨h1, h2, h3, h4⟩ := bomb_hits_fields b.bomb.advance.get_all_cells
        { b with bomb := b.bomb.advance }
      exact ⟨h1, h3, h4⟩

theorem generate_apples_loop_fields (W H : ℤ) (fuel : ℕ) :
    ∀ (draws : List AppleData) (b b' : GameBoard),
      generate_apples_loop W H fuel draws b = some b' →
      b'.snake = b.snake ∧ b'.score = b.score ∧
      b'.new_score_available = b.new_score_available ∧ b'.bomb = b.bomb := by
  induction fuel with
  | zero =>
    intro draws b b' h
    rw [generate_apples_loop] at h
    split at h
    · exact absurd h (by simp)
    · obtain rfl := Option.some.inj h
      exact ⟨rfl, rfl, rfl, rfl⟩
  | succ fuel ih =>
    intro draws b b' h
    rw [generate_apples_loop] at h
    split at h
    · split at h
      · obtain rfl := Option.some.inj h
        exact ⟨rfl, rfl, rfl, rfl⟩
      · split at h
        · exact absurd h (by simp)
        · obtain ⟨h1, h2, h3, h4⟩ := ih _ _ _ h
          exact ⟨h1, h2, h3, h4⟩
    · obtain rfl := Option.some.inj h
      exact ⟨rfl, rfl, rfl, rfl⟩

/-! ## Claim C3: the bomb's danger-cell query -/

/-- C3: the set of a bomb's danger cells (`get_all_cells`) is exactly
`{origin}` while `turns_until_boom > 0`, and exactly the cells at Manhattan
distance `current_radius` from the origin once `turns_until_boom = 0` (for
radius `0` that is `{origin}` itself); the blast-ring component and the
origin component are never simultaneously non-empty, and the query is a total
function. -/
theorem C3_bomb_danger_cells (bm : Bomb) (c : CELL) :
    (c ∈ bm.get_all_cells ↔
      (if 0 < bm.turns_until_boom then c = bm.cell
       else manhattan c bm.cell = (bm.current_radius : ℤ))) ∧
    (bm.get_blast_cells = [] ∨ bm.get_bomb_cells = []) := by
  constructor
  · rw [Bomb.get_all_cells, List.mem_append, mem_get_blast_cells]
    by_cases ht : 0 < bm.turns_until_boom
    · have ht' : bm.turns_until_boom ≠ 0 := by omega
      simp [Bomb.get_bomb_cells, ht, ht']
    · have ht0 : bm.turns_until_boom = 0 := by omega
      simp [Bomb.get_bomb_cells, ht, ht0]
  · by_cases ht : 0 < bm.turns_until_boom
    · left
      simp [Bomb.get_blast_cells, ht]
    · right
      simp [Bomb.get_bomb_cells, ht]

/-! ## Claim C1: rounds after termination -/

/-- C1 counterexample: on a board whose `should_quit` flag is already set,
`execute_round` is *not* a no-op — the snake's cells change (the tail is
removed and a new head is appended), because `execute_round` never checks
`should_quit` before the snake-movement step. -/
theorem C1_counterexample :
    terminatedBoard.should_quit = true ∧
    terminatedBoard.snake.cells = [(10, 8), (10, 9), (10, 10)] ∧
    (execute_round 20 20 [] [] none terminatedBoard).map (fun r => r.snake.cells) =
      some [(10, 9), (10, 10), (10, 11)] := by
  refine ⟨rfl, rfl, ?_⟩
  rfl

/-- C1 amended: when `should_quit` is already true, `execute_round` still runs
the direction change and the whole snake-movement step (which can mutate the
snake, the score, the score-dirty flag and the apples), and only then returns
early: the bomb is never touched and `should_quit` remains true. -/
theorem C1_terminated_round (W H : ℤ) (bd : List BombData) (ad : List AppleData)
    (k : Option Direction) (b : GameBoard) (h : b.should_quit = true) :
    execute_round W H bd ad k b =
      some (update_snake_head W H { b with snake := b.snake.change_direction k }) ∧
    (update_snake_head W H { b with snake := b.snake.change_direction k }).bomb = b.bomb ∧
    (update_snake_head W H { b with snake := b.snake.change_direction k }).should_quit
      = true := by
  have hq : (update_snake_head W H { b with snake := b.snake.change_direction k }).should_quit
      = true := update_snake_head_quit_mono W H _ h
  refine ⟨?_, update_snake_head_bomb W H _, hq⟩
  rw [execute_round]
  rw [if_pos hq]

/-- C1 witness for the amended theorem at a concrete terminated board. -/
theorem C1_terminated_round_witness :
    terminatedBoard.should_quit = true ∧
    (execute_round 20 20 [] [] none terminatedBoard =
      some (update_snake_head 20 20
        { terminatedBoard with snake := terminatedBoard.snake.change_direction none }) ∧
    (update_snake_head 20 20
        { terminatedBoard with snake := terminatedBoard.snake.change_direction none }).bomb
      = terminatedBoard.bomb ∧
    (update_snake_head 20 20
        { terminatedBoard with snake := terminatedBoard.snake.change_direction none }).should_quit
      = true) :=
  ⟨rfl, C1_terminated_round 20 20 [] [] none terminatedBoard rfl⟩

/-! ## Claim C4: bombs with `max_radius = 0` -/

/-- C4 counterexample: a bomb with `max_radius = 0` and a running timer
(5 turns left) does *not* survive its countdown: `is_done` is already true at
spawn (`current_radius = 0 ≥ max_radius = 0`), and the very first bomb update
replaces it while `turns_until_boom` is still 5. -/
theorem C4_counterexample :
    maxZeroBoard.bomb.turns_until_boom = 5 ∧
    maxZeroBoard.bomb.is_done = true ∧
    (update_bomb 20 20 [{ x := 0, y := 0, max_radius := 3, turns_until_boom := 10 }]
        maxZeroBoard).map (fun r => r.bomb) =
      some { cell := (0, 0), max_radius := 3, turns_until_boom := 10,
             current_radius := 0 } := by
  refine ⟨rfl, rfl, ?_⟩
  rfl

/-- C4 amended: a bomb with `max_radius = 0` counts as spent immediately
(`is_done` holds from spawn on, whatever the timer says), so the bomb update
replaces it on its first round, without the timer ever counting down. -/
theorem C4_max_radius_zero_spent (W H : ℤ) (draws : List BombData) (b : GameBoard)
    (h : b.bomb.max_radius = 0) :
    b.bomb.is_done = true ∧
    update_bomb W H draws b =
      (randomize_bomb W H b draws).map (fun nb => { b with bomb := nb }) := by
  have hd : b.bomb.is_done = true := by
    simp [Bomb.is_done, h]
  refine ⟨hd, ?_⟩
  rw [update_bomb, if_pos hd]

/-- C4 witness for the amended theorem at the concrete board. -/
theorem C4_max_radius_zero_spent_witness :
    maxZeroBoard.bomb.max_radius = 0 ∧
    (maxZeroBoard.bomb.is_done = true ∧
     update_bomb 20 20 [{ x := 0, y := 0, max_radius := 3, turns_until_boom := 10 }]
         maxZeroBoard =
       (randomize_bomb 20 20 maxZeroBoard
           [{ x := 0, y := 0, max_radius := 3, turns_until_boom := 10 }]).map
         (fun nb => { maxZeroBoard with bomb := nb })) :=
  ⟨rfl, C4_max_radius_zero_spent 20 20 _ maxZeroBoard rfl⟩

/-! ## Claim C2: the vacated tail cell is a legal destination -/

/-- C2: the tail is shortened before the new head's legality is checked, so
for a snake with no growth pending, length at least 2 and duplicate-free
cells, a move into the cell its tail vacates this round causes no
self-collision, and (provided that cell is on the grid and bomb-free) the
round does not terminate. -/
theorem C2_tail_cell_is_legal (W H : ℤ) (b : GameBoard) (t : CELL) (rest : List CELL)
    (hq : b.should_quit = false)
    (hg : b.snake.grow_turns = 0)
    (hc : b.snake.cells = t :: rest)
    (hr : rest ≠ [])
    (hnd : b.snake.cells.Nodup)
    (hnh : (b.snake.shorten_tail).get_new_head = t)
    (hleg : is_cell_legal W H t = true)
    (hbomb : t ∉ b.bomb.get_all_cells) :
    (b.snake.shorten_tail).get_new_head ∉ (b.snake.shorten_tail).cells ∧
    (update_snake_head W H b).should_quit = false := by
  have hs1 : (b.snake.shorten_tail).cells = rest := by
    rw [shorten_tail_of_grow_zero _ hg, hc]
    rfl
  have hmem : t ∉ rest := by
    rw [hc] at hnd
    exact (List.nodup_cons.mp hnd).1
  have hnotin : (b.snake.shorten_tail).get_new_head ∉ (b.snake.shorten_tail).cells := by
    rw [hnh, hs1]
    exact hmem
  refine ⟨hnotin, ?_⟩
  rw [update_snake_head]
  dsimp only
  rw [hnh, if_neg ?_]
  · rw [(eat_apples_fields _ _ 0 _).2.2.2]
    exact hq
  · simp [hleg, hs1, hmem, hbomb]

/-- C2 witness at a concrete board whose next head is the vacated tail cell. -/
theorem C2_tail_cell_is_legal_witness :
    (tailChaseBoard.snake.shorten_tail).get_new_head ∉
      (tailChaseBoard.snake.shorten_tail).cells ∧
    (update_snake_head 20 20 tailChaseBoard).should_quit = false :=
  C2_tail_cell_is_legal 20 20 tailChaseBoard (0, 0) [(0, 1)] rfl rfl rfl
    (by decide) (by decide) rfl rfl (by decide)

/-! ## Claim C10: effect of a fatal move -/

/-- C10: on a live board with no growth pending and a nonempty snake, a round
whose next head is off-grid, inside the remaining snake body, or in a bomb
danger cell sets the terminal flag and stops; the tail has already been
removed and no head is appended, so the snake is exactly one cell shorter,
while the score, the apples, the bomb and the score-dirty flag are untouched
(only the direction may have been updated by the input). -/
theorem C10_fatal_move_shortens (W H : ℤ) (bd : List BombData) (ad : List AppleData)
    (k : Option Direction) (b : GameBoard)
    (hq : b.should_quit = false)
    (hg : b.snake.grow_turns = 0)
    (hne : b.snake.cells ≠ [])
    (hfatal : is_cell_legal W H ((b.snake.change_direction k).shorten_tail).get_new_head = false ∨
      ((b.snake.change_direction k).shorten_tail).get_new_head ∈
        ((b.snake.change_direction k).shorten_tail).cells ∨
      ((b.snake.change_direction k).shorten_tail).get_new_head ∈ b.bomb.get_all_cells) :
    execute_round W H bd ad k b =
      some { b with snake := (b.snake.change_direction k).shorten_tail,
                    should_quit := true } ∧
    ((b.snake.change_direction k).shorten_tail).cells.length + 1 =
      b.snake.cells.length := by
  have hg1 : (b.snake.change_direction k).grow_turns = 0 := by
    rw [change_direction_grow]
    exact hg
  have hcl : ((b.snake.change_direction k).shorten_tail).cells =
      (b.snake.change_direction k).cells.tail := by
    rw [shorten_tail_of_grow_zero _ hg1]
  have hlen : ((b.snake.change_direction k).shorten_tail).cells.length + 1 =
      b.snake.cells.length := by
    rw [hcl, change_direction_cells, List.length_tail]
    have : b.snake.cells.length ≠ 0 := by
      intro h0
      exact hne (List.length_eq_zero.mp h0)
    omega
  refine ⟨?_, hlen⟩
  have hguard : (!is_cell_legal W H ((b.snake.change_direction k).shorten_tail).get_new_head ||
      ((b.snake.change_direction k).shorten_tail).cells.contains
        ((b.snake.change_direction k).shorten_tail).get_new_head ||
      b.bomb.get_all_cells.contains
        ((b.snake.change_direction k).shorten_tail).get_new_head) = true := by
    rcases hfatal with h | h | h
    · simp [h]
    · simp [h]
    · simp [h]
  have hstep : update_snake_head W H { b with snake := b.snake.change_direction k } =
      { b with snake := (b.snake.change_direction k).shorten_tail,
               should_quit := true } := by
    rw [update_snake_head]
    dsimp only
    rw [if_pos hguard]
  rw [execute_round]
  rw [hstep]
  simp

/-- C10 witness: a concrete fatal move into the wall. -/
theorem C10_fatal_move_shortens_witness :
    (execute_round 20 20 [] [] none fatalBoard =
      some { fatalBoard with snake := (fatalBoard.snake.change_direction none).shorten_tail,
                             should_quit := true }) ∧
    ((fatalBoard.snake.change_direction none).shorten_tail).cells.length + 1 =
      fatalBoard.snake.cells.length :=
  C10_fatal_move_shortens 20 20 [] [] none fatalBoard rfl rfl (by decide)
    (Or.inl (by decide))

/-! ## Claim C5: growth is spread over the following rounds -/

theorem run_rounds_while_growing (ks : List (Option Direction)) :
    ∀ s : Snake, ks.length ≤ s.grow_turns →
      (run_rounds ks s).grow_turns = s.grow_turns - ks.length ∧
      (run_rounds ks s).cells.length = s.cells.length + ks.length := by
  induction ks with
  | nil =>
    intro s h
    refine ⟨?_, ?_⟩ <;> simp [run_rounds]
  | cons k ks ih =>
    intro s h
    have hg : 0 < (s.change_direction k).grow_turns := by
      rw [change_direction_grow]
      simp at h
      omega
    have hstep : snake_round k s =
        ({ s.change_direction k with
            grow_turns := (s.change_direction k).grow_turns - 1 }).advance_head := by
      rw [snake_round, shorten_tail_of_grow_pos _ hg]
    have hrun : run_rounds (k :: ks) s = run_rounds ks (snake_round k s) := rfl
    have hlen : (snake_round k s).cells.length = s.cells.length + 1 := by
      rw [hstep]
      simp [Snake.advance_head, change_direction_cells]
    have hgrow : (snake_round k s).grow_turns = s.grow_turns - 1 := by
      rw [hstep]
      simp [Snake.advance_head, change_direction_grow]
    obtain ⟨ih1, ih2⟩ := ih (snake_round k s) (by simp at h; omega)
    rw [hrun] at *
    constructor
    · rw [ih1, hgrow]
      simp at h ⊢
      omega
    · rw [ih2, hlen]
      simp
      omega

/-- C5: starting from a snake with no growth pending, `grow a` sets the
pending counter to `a`; over the next rounds (as long as fewer than `a` have
run) `shorten_tail` leaves the cell sequence unchanged while the counter
counts down, after each of the first `a` rounds the length has grown by one
per round, and on the round after the `a`-th one tail removal resumes
(`shorten_tail` drops the tail again and the length stays at its new value,
exactly `a` more than before the growth event). -/
theorem C5_growth_spread (s : Snake) (a : ℕ) (hg : s.grow_turns = 0)
    (hne : s.cells ≠ []) :
    (s.grow a).grow_turns = a ∧
    (∀ ks : List (Option Direction), ks.length ≤ a →
      (run_rounds ks (s.grow a)).grow_turns = a - ks.length ∧
      (run_rounds ks (s.grow a)).cells.length = s.cells.length + ks.length ∧
      (ks.length < a → ∀ k,
        (((run_rounds ks (s.grow a)).change_direction k).shorten_tail).cells =
          (run_rounds ks (s.grow a)).cells)) ∧
    (∀ ks : List (Option Direction), ks.length = a → ∀ k,
      (((run_rounds ks (s.grow a)).change_direction k).shorten_tail).cells =
        (run_rounds ks (s.grow a)).cells.tail ∧
      (snake_round k (run_rounds ks (s.grow a))).cells.length =
        s.cells.length + a) := by
  have hga : (s.grow a).grow_turns = a := by
    simp [Snake.grow, hg]
  have hcells : (s.grow a).cells = s.cells := rfl
  refine ⟨hga, ?_, ?_⟩
  · intro ks hks
    obtain ⟨h1, h2⟩ := run_rounds_while_growing ks (s.grow a) (by omega)
    rw [hga] at h1
    rw [hcells] at h2
    refine ⟨h1, h2, ?_⟩
    intro hlt k
    have hpos : 0 < ((run_rounds ks (s.grow a)).change_direction k).grow_turns := by
      rw [change_direction_grow, h1]
      omega
    rw [shorten_tail_of_grow_pos _ hpos, change_direction_cells]
  · intro ks hks k
    obtain ⟨h1, h2⟩ := run_rounds_while_growing ks (s.grow a) (by omega)
    rw [hga, hks] at h1
    rw [hcells, hks] at h2
    have hz : ((run_rounds ks (s.grow a)).change_direction k).grow_turns = 0 := by
      rw [change_direction_grow, h1]
      omega
    have hshort : (((run_rounds ks (s.grow a)).change_direction k).shorten_tail).cells =
        (run_rounds ks (s.grow a)).cells.tail := by
      rw [shorten_tail_of_grow_zero _ hz, change_direction_cells]
    refine ⟨hshort, ?_⟩
    have hlen1 : s.cells.length ≠ 0 := by
      intro h0
      exact hne (List.length_eq_zero.mp h0)
    rw [snake_round, Snake.advance_head]
    simp [hshort]
    omega

/-- C5 witness: growing by 2 and running two rounds leaves the counter at 0
and the snake exactly two cells longer. -/
theorem C5_growth_spread_witness :
    (run_rounds [none, none] (growSnake.grow 2)).grow_turns = 0 ∧
    (run_rounds [none, none] (growSnake.grow 2)).cells.length =
      growSnake.cells.length + 2 := by
  obtain ⟨-, h2, -⟩ := C5_growth_spread growSnake 2 rfl (by decide)
  exact ⟨(h2 [none, none] (by decide)).1, (h2 [none, none] (by decide)).2.1⟩

/-! ## Claim C7: at most one apple per round -/

theorem eat_apples_out (nh : CELL) (fuel i : ℕ) (b : GameBoard)
    (h : ¬ i < b.apples.length) : eat_apples nh fuel i b = b := by
  cases fuel with
  | zero => rfl
  | succ fuel =>
    rw [eat_apples, dif_neg h]

theorem eat_apples_skip (nh : CELL) (fuel : ℕ) :
    ∀ (i : ℕ) (b : GameBoard),
      (∀ j, ∀ hj : j < b.apples.length, i ≤ j → (b.apples[j]).cell ≠ nh) →
      eat_apples nh fuel i b = b := by
  induction fuel with
  | zero => intro i b h; rfl
  | succ fuel ih =>
    intro i b h
    rw [eat_apples]
    split
    · rename_i hi
      rw [if_neg (h i hi (Nat.le_refl i))]
      exact ih (i + 1) b (fun j hj hij => h j hj (by omega))
    · rfl

theorem eat_apples_shift (nh : CELL) :
    ∀ (n fuel i : ℕ) (b : GameBoard),
      (∀ j, ∀ hj : j < b.apples.length, i ≤ j → j < i + n → (b.apples[j]).cell ≠ nh) →
      eat_apples nh (fuel + n) i b = eat_apples nh fuel (i + n) b := by
  intro n
  induction n with
  | zero => intro fuel i b h; rfl
  | succ n ih =>
    intro fuel i b h
    by_cases hi : i < b.apples.length
    · have hstep : eat_apples nh ((fuel + n) + 1) i b =
          eat_apples nh (fuel + n) (i + 1) b := by
        rw [eat_apples, dif_pos hi, if_neg (h i hi (Nat.le_refl i) (by omega))]
      have harith : i + 1 + n = i + (n + 1) := by omega
      rw [show fuel + (n + 1) = (fuel + n) + 1 from rfl, hstep,
        ih fuel (i + 1) b (fun j hj h1 h2 => h j hj (by omega) (by omega)), harith]
    · rw [eat_apples_out nh _ i b hi, eat_apples_out nh fuel (i + (n + 1)) b (by omega)]

/-- C7: in a round whose apples have pairwise-distinct cells, at most one
apple is eaten: when no apple sits on the next head the eating loop changes
nothing, and when the apples split as `pre ++ a :: post` with `a` on the next
head, the loop performs exactly one score addition (`a`'s score), one
score-dirty marking, one removal (`a` itself) and one `grow APPLE_GROW_SIZE`
— two apples can never be eaten in one round. -/
theorem C7_one_apple_per_round (b : GameBoard) (nh : CELL)
    (hnd : (b.apples.map (fun x => x.cell)).Nodup) :
    ((∀ x ∈ b.apples, x.cell ≠ nh) → eat_apples nh b.apples.length 0 b = b) ∧
    (∀ pre a post, b.apples = pre ++ a :: post → a.cell = nh →
      eat_apples nh b.apples.length 0 b =
        { b with score := b.score + a.score, new_score_available := true,
                 apples := pre ++ post,
                 snake := b.snake.grow APPLE_GROW_SIZE }) := by
  constructor
  · intro h
    exact eat_apples_skip nh _ 0 b (fun j hj _ => h _ (b.apples.getElem_mem hj))
  · intro pre a post hsplit hcell
    have hnd' := hnd
    rw [hsplit, List.map_append, List.map_cons] at hnd'
    obtain ⟨hnd1, hnd2, hdisj⟩ := List.nodup_append.mp hnd'
    have hacpre : a.cell ∉ pre.map (fun x => x.cell) := by
      intro hmem
      exact hdisj hmem (List.mem_cons_self _ _)
    have hacpost : a.cell ∉ post.map (fun x => x.cell) :=
      (List.nodup_cons.mp hnd2).1
    have hpre : ∀ x ∈ pre, x.cell ≠ nh := by
      intro x hx hxc
      exact hacpre (List.mem_map.mpr ⟨x, hx, by rw [hxc, hcell]⟩)
    have hpost : ∀ x ∈ post, x.cell ≠ nh := by
      intro x hx hxc
      exact hacpost (List.mem_map.mpr ⟨x, hx, by rw [hxc, hcell]⟩)
    have hanotin : a ∉ pre := fun hmem => hpre a hmem hcell
    have hlen : b.apples.length = (post.length + 1) + pre.length := by
      rw [hsplit]
      simp
      omega
    have hidx : pre.length < b.apples.length := by
      rw [hsplit]
      simp
    have hget : b.apples[pre.length] = a := by
      simp only [hsplit]
      rw [List.getElem_append_right (Nat.le_refl _)]
      simp
    have hwalk : ∀ j, ∀ hj : j < b.apples.length, 0 ≤ j → j < 0 + pre.length →
        (b.apples[j]).cell ≠ nh := by
      intro j hj _ hlt
      have hj' : j < pre.length := by omega
      have : b.apples[j] = pre[j] := by
        simp only [hsplit]
        rw [List.getElem_append_left]
      rw [this]
      exact hpre _ (pre.getElem_mem hj')
    rw [hlen, eat_apples_shift nh pre.length (post.length + 1) 0 b hwalk,
      Nat.zero_add, eat_apples, dif_pos hidx, hget, if_pos hcell]
    have herase : b.apples.erase a = pre ++ post := by
      rw [hsplit, List.erase_append_right _ hanotin, List.erase_cons_head]
    rw [herase]
    exact eat_apples_skip nh post.length (pre.length + 1) _ (fun j hj _ => by
      have hmem := (pre ++ post).getElem_mem hj
      rcases List.mem_append.mp hmem with hx | hx
      · exact hpre _ hx
      · exact hpost _ hx)

/-- C7 witness: with two distinct-celled apples the loop eats exactly the one
on the next head. -/
theorem C7_one_apple_per_round_witness :
    eat_apples (10, 11) appleBoard.apples.length 0 appleBoard =
      { appleBoard with score := appleBoard.score + 5, new_score_available := true,
                        apples := [{ cell := (3, 3), score := 7 }],
                        snake := appleBoard.snake.grow APPLE_GROW_SIZE } :=
  (C7_one_apple_per_round appleBoard (10, 11) (by decide)).2
    [{ cell := (3, 3), score := 7 }] { cell := (10, 11), score := 5 } [] rfl rfl

/-! ## Claim C6: apple replenishment and the board-full check -/

theorem generate_apples_loop_len (W H : ℤ) (fuel : ℕ) :
    ∀ (draws : List AppleData) (b b' : GameBoard),
      generate_apples_loop W H fuel draws b = some b' →
      b'.should_quit = false →
      b'.apples.length = max b.apples.length NUMBER_OF_APPLES ∧
      ∃ new, b'.apples = b.apples ++ new := by
  induction fuel with
  | zero =>
    intro draws b b' h hq
    rw [generate_apples_loop] at h
    split at h
    · exact absurd h (by simp)
    · obtain rfl := Option.some.inj h
      rename_i hlen
      refine ⟨by omega, [], by simp⟩
  | succ fuel ih =>
    intro draws b b' h hq
    rw [generate_apples_loop] at h
    split at h
    · rename_i hlen
      split at h
      · obtain rfl := Option.some.inj h
        exact absurd hq (by simp)
      · split at h
        · exact absurd h (by simp)
        · rename_i hfull happle a rest hdraw
          obtain ⟨ih1, new, ih2⟩ := ih _ _ _ h hq
          refine ⟨?_, a :: new, ?_⟩
          · rw [ih1]
            simp only [List.length_append, List.length_cons, List.length_nil]
            unfold NUMBER_OF_APPLES at hlen ⊢
            omega
          · rw [ih2]
            simp
    · obtain rfl := Option.some.inj h
      rename_i hlen
      refine ⟨by omega, [], by simp⟩

/-- C6: when fewer than `NUMBER_OF_APPLES` apples remain and the board is
full (snake cells + apples + bomb danger cells cover the whole grid), apple
replenishment sets the terminal flag and returns without attempting any
spawn; otherwise (whenever it completes without terminating) it has appended
apples until the count is `NUMBER_OF_APPLES` (and left a larger collection
alone). -/
theorem C6_replenish_or_terminate (W H : ℤ) (draws : List AppleData)
    (b b' : GameBoard) :
    (b.apples.length < NUMBER_OF_APPLES → is_board_full W H b = true →
      generate_apples W H draws b = some { b with should_quit := true }) ∧
    (generate_apples W H draws b = some b' → b'.should_quit = false →
      b'.apples.length = max b.apples.length NUMBER_OF_APPLES ∧
      ∃ new, b'.apples = b.apples ++ new) := by
  constructor
  · intro hlen hfull
    rw [generate_apples, show NUMBER_OF_APPLES = 2 + 1 from rfl,
      generate_apples_loop]
    rw [if_pos hlen, if_pos hfull]
  · exact fun h hq => generate_apples_loop_len W H NUMBER_OF_APPLES draws b b' h hq

/-- C6 witness: on the full one-cell grid replenishment terminates without
spawning; on a roomy board it fills the collection up to three apples. -/
theorem C6_replenish_or_terminate_witness :
    (fullBoard.apples.length < NUMBER_OF_APPLES ∧
     is_board_full 1 1 fullBoard = true ∧
     generate_apples 1 1 [] fullBoard = some { fullBoard with should_quit := true }) ∧
    (generate_apples 20 20 [{ x := 1, y := 1, score := 2 }, { x := 2, y := 2, score := 2 }]
        genBoard = some genBoardAfter ∧
     genBoardAfter.should_quit = false ∧
     genBoardAfter.apples.length = max genBoard.apples.length NUMBER_OF_APPLES ∧
     ∃ new, genBoardAfter.apples = genBoard.apples ++ new) :=
  ⟨⟨by decide, by decide,
    (C6_replenish_or_terminate 1 1 [] fullBoard fullBoard).1 (by decide) (by decide)⟩,
   rfl, rfl,
    (C6_replenish_or_terminate 20 20
      [{ x := 1, y := 1, score := 2 }, { x := 2, y := 2, score := 2 }]
      genBoard genBoardAfter).2 rfl rfl⟩

/-! ## Claim C9: the pull-based score query -/

theorem execute_round_score_flag (W H : ℤ) (bd : List BombData)
    (ad : List AppleData) (k : Option Direction) (b b' : GameBoard)
    (hr : execute_round W H bd ad k b = some b')
    (hs : b'.score ≠ b.score) : b'.new_score_available = true := by
  rw [execute_round] at hr
  split at hr
  · obtain rfl := Option.some.inj hr
    exact update_snake_head_score_change W H _ hs
  · obtain ⟨b3, hb3, hrest⟩ := Option.bind_eq_some.mp hr
    obtain ⟨hsn3, hsc3, hfl3⟩ := update_bomb_fields W H bd _ b3 hb3
    split at hrest
    · obtain rfl := Option.some.inj hrest
      rw [hfl3]
      rw [hsc3] at hs
      exact update_snake_head_score_change W H _ hs
    · rw [generate_apples] at hrest
      obtain ⟨hsn', hsc', hfl', hbb'⟩ := generate_apples_loop_fields W H _ _ _ _ hrest
      rw [hfl', hfl3]
      rw [hsc', hsc3] at hs
      exact update_snake_head_score_change W H _ hs

/-- C9: the score query returns the score exactly when the score-dirty flag
is set and clears the flag, so two back-to-back calls can never both return a
value; and any round that changes the score sets the flag, so the changed
score is returned by the next call (exactly once, by the first two parts). -/
theorem C9_score_query_once (W H : ℤ) (bd : List BombData) (ad : List AppleData)
    (k : Option Direction) (b b' : GameBoard)
    (hr : execute_round W H bd ad k b = some b')
    (hs : b'.score ≠ b.score) :
    ((get_new_score b).1 = if b.new_score_available then some b.score else none) ∧
    (get_new_score (get_new_score b).2).1 = none ∧
    b'.new_score_available = true ∧
    (get_new_score b').1 = some b'.score := by
  have hflag := execute_round_score_flag W H bd ad k b b' hr hs
  refine ⟨?_, ?_, hflag, ?_⟩
  · unfold get_new_score
    split <;> simp_all
  · by_cases hf : b.new_score_available <;> simp [get_new_score, hf]
  · simp [get_new_score, hflag]

/-! ## Claim C8: the snake stays a duplicate-free grid path -/

theorem head_adjacent_new_head (s : Snake) :
    manhattan s.head s.get_new_head = 1 := by
  unfold Snake.get_new_head manhattan
  cases s.direction <;> simp [DIRECTION_VECTORS]

theorem shorten_tail_cases (s : Snake) :
    s.shorten_tail.cells = s.cells ∨ s.shorten_tail.cells = s.cells.tail := by
  unfold Snake.shorten_tail
  split
  · exact Or.inl rfl
  · exact Or.inr rfl

theorem snake_cells_append_inv (s1 : Snake) (nh : CELL)
    (hch : List.Chain' (fun c d => manhattan c d = 1) s1.cells)
    (hnd : s1.cells.Nodup)
    (hlen : 2 ≤ s1.cells.length)
    (hnh : nh = s1.get_new_head)
    (hnotin : nh ∉ s1.cells) :
    List.Chain' (fun c d => manhattan c d = 1) (s1.cells ++ [nh]) ∧
    (s1.cells ++ [nh]).Nodup ∧ 3 ≤ (s1.cells ++ [nh]).length := by
  have hne : s1.cells ≠ [] := by
    intro h0
    rw [h0] at hlen
    simp at hlen
  refine ⟨?_, ?_, ?_⟩
  · rw [List.chain'_append]
    refine ⟨hch, List.chain'_singleton nh, ?_⟩
    intro x hx y hy
    simp only [List.head?_cons, Option.mem_def, Option.some.injEq] at hy
    subst hy
    have hx' : x = s1.cells.getLast hne := by
      rw [List.getLast?_eq_getLast _ hne] at hx
      exact (by simpa using hx : s1.cells.getLast hne = x).symm
    subst hx'
    have hhead : s1.head = s1.cells.getLast hne := by
      rw [Snake.head, List.getLastD_eq_getLast?, List.getLast?_eq_getLast _ hne]
      rfl
    rw [hnh, ← hhead]
    exact head_adjacent_new_head s1
  · rw [List.nodup_append]
    refine ⟨hnd, List.nodup_singleton nh, ?_⟩
    intro x hx hx1
    simp only [List.mem_singleton] at hx1
    subst hx1
    exact hnotin hx
  · simp only [List.length_append, List.length_singleton]
    omega

theorem get_new_head_congr (s t : Snake) (hc : s.cells = t.cells)
    (hd : s.direction = t.direction) : s.get_new_head = t.get_new_head := by
  unfold Snake.get_new_head Snake.head
  rw [hc, hd]

theorem update_snake_head_inv (W H : ℤ) (b : GameBoard)
    (hch : List.Chain' (fun c d => manhattan c d = 1) b.snake.cells)
    (hnd : b.snake.cells.Nodup)
    (hlen : 3 ≤ b.snake.cells.length)
    (hq : (update_snake_head W H b).should_quit = false) :
    List.Chain' (fun c d => manhattan c d = 1) (update_snake_head W H b).snake.cells ∧
    (update_snake_head W H b).snake.cells.Nodup ∧
    3 ≤ (update_snake_head W H b).snake.cells.length := by
  rw [update_snake_head] at hq ⊢
  dsimp only at hq ⊢
  split at hq
  · exact absurd hq (by simp)
  · rename_i hguard
    rw [if_neg hguard]
    have hnotin : (b.snake.shorten_tail).get_new_head ∉ (b.snake.shorten_tail).cells := by
      intro hmem
      apply hguard
      simp
      exact Or.inl (Or.inr hmem)
    -- invariants of the shortened snake
    have hch1 : List.Chain' (fun c d => manhattan c d = 1) (b.snake.shorten_tail).cells := by
      rcases shorten_tail_cases b.snake with h | h <;> rw [h]
      · exact hch
      · exact List.Chain'.tail hch
    have hnd1 : (b.snake.shorten_tail).cells.Nodup := by
      rcases shorten_tail_cases b.snake with h | h <;> rw [h]
      · exact hnd
      · exact hnd.sublist (List.tail_sublist _)
    have hlen1 : 2 ≤ (b.snake.shorten_tail).cells.length := by
      rcases shorten_tail_cases b.snake with h | h <;> rw [h]
      · omega
      · rw [List.length_tail]
        omega
    -- the committed snake after the apple loop
    have hfields := eat_apples_fields (b.snake.shorten_tail).get_new_head
      b.apples.length 0 { b with snake := b.snake.shorten_tail }
    obtain ⟨hcells, hdir, -, -⟩ := hfields
    have hnh : (eat_apples (b.snake.shorten_tail).get_new_head b.apples.length 0
        { b with snake := b.snake.shorten_tail }).snake.get_new_head =
        (b.snake.shorten_tail).get_new_head :=
      get_new_head_congr _ _ hcells hdir
    rw [Snake.advance_head]
    dsimp only
    rw [hnh, hcells]
    dsimp only
    exact snake_cells_append_inv (b.snake.shorten_tail) _ hch1 hnd1 hlen1 rfl hnotin

theorem initial_board_snake (W H : ℤ) (bd : List BombData) (ad : List AppleData)
    (b : GameBoard) (h : initial_board W H bd ad = some b) :
    b.snake = { cells := INITIAL_SNAKE_CELLS, direction := INITIAL_SNAKE_DIRECTION,
                grow_turns := 0 } := by
  rw [initial_board] at h
  obtain ⟨bomb, hbomb, hgen⟩ := Option.bind_eq_some.mp h
  obtain ⟨b1, hb1, rfl⟩ := Option.map_eq_some'.mp hgen
  rw [generate_apples] at hb1
  obtain ⟨hsn, -, -, -⟩ := generate_apples_loop_fields W H _ _ _ _ hb1
  exact hsn

theorem reachable_snake_inv (W H : ℤ) (b : GameBoard) (h : Reachable W H b) :
    List.Chain' (fun c d => manhattan c d = 1) b.snake.cells ∧
    b.snake.cells.Nodup ∧ 3 ≤ b.snake.cells.length := by
  induction h with
  | init bd ad b hb =>
    rw [initial_board_snake W H bd ad b hb]
    refine ⟨?_, by decide, by decide⟩
    show List.Chain' (fun c d => manhattan c d = 1) [(10, 8), (10, 9), (10, 10)]
    norm_num [List.chain'_cons, manhattan]
  | step b bd ad k b' hr hs hq ih =>
    obtain ⟨ich, ind, ilen⟩ := ih
    have hb1ch : List.Chain' (fun c d => manhattan c d = 1)
        ({ b with snake := b.snake.change_direction k }).snake.cells := by
      dsimp only
      rw [change_direction_cells]
      exact ich
    have hb1nd : ({ b with snake := b.snake.change_direction k }).snake.cells.Nodup := by
      dsimp only
      rw [change_direction_cells]
      exact ind
    have hb1len : 3 ≤ ({ b with snake := b.snake.change_direction k }).snake.cells.length := by
      dsimp only
      rw [change_direction_cells]
      exact ilen
    rw [execute_round] at hs
    split at hs
    · obtain rfl := Option.some.inj hs
      exact update_snake_head_inv W H _ hb1ch hb1nd hb1len hq
    · rename_i hq2
      have hq2' : (update_snake_head W H { b with snake := b.snake.change_direction k }).should_quit
          = false := by
        revert hq2
        cases (update_snake_head W H { b with snake := b.snake.change_direction k }).should_quit <;>
          simp
      obtain ⟨uch, und, ulen⟩ := update_snake_head_inv W H _ hb1ch hb1nd hb1len hq2'
      obtain ⟨b3, hb3, hrest⟩ := Option.bind_eq_some.mp hs
      obtain ⟨hsn3, -, -⟩ := update_bomb_fields W H bd _ b3 hb3
      split at hrest
      · obtain rfl := Option.some.inj hrest
        rw [hsn3]
        exact ⟨uch, und, ulen⟩
      · rw [generate_apples] at hrest
        obtain ⟨hsn', -, -, -⟩ := generate_apples_loop_fields W H _ _ _ _ hrest
        rw [hsn', hsn3]
        exact ⟨uch, und, ulen⟩

/-- C8: on every board reachable from the initial board through rounds that
left the game running, consecutive snake cells are at Manhattan distance
exactly 1 and no cell occurs twice in the snake. -/
theorem C8_snake_path_invariant (W H : ℤ) (b : GameBoard) (h : Reachable W H b) :
    List.Chain' (fun c d => manhattan c d = 1) b.snake.cells ∧
    b.snake.cells.Nodup :=
  ⟨(reachable_snake_inv W H b h).1, (reachable_snake_inv W H b h).2.1⟩

/-- C8 witness: the invariant holds at a concrete freshly initialized board. -/
theorem C8_snake_path_invariant_witness :
    List.Chain' (fun c d => manhattan c d = 1) startBoard.snake.cells ∧
    startBoard.snake.cells.Nodup :=
  C8_snake_path_invariant 20 20 startBoard
    (Reachable.init [{ x := 0, y := 0, max_radius := 3, turns_until_boom := 10 }]
      [{ x := 1, y := 1, score := 2 }, { x := 2, y := 2, score := 2 },
       { x := 3, y := 3, score := 2 }] startBoard rfl)

/-- C9 witness: a concrete apple-eating round changes the score, sets the
dirty flag, and the query then reports the new score exactly once. -/
theorem C9_score_query_once_witness :
    (execute_round 20 20 []
        [{ x := 1, y := 1, score := 2 }, { x := 2, y := 2, score := 2 }] none appleBoard =
      some appleBoardAfter) ∧
    appleBoardAfter.score ≠ appleBoard.score ∧
    (((get_new_score appleBoard).1 =
        if appleBoard.new_score_available then some appleBoard.score else none) ∧
      (get_new_score (get_new_score appleBoard).2).1 = none ∧
      appleBoardAfter.new_score_available = true ∧
      (get_new_score appleBoardAfter).1 = some appleBoardAfter.score) :=
  ⟨rfl, by decide,
    C9_score_query_once 20 20 []
      [{ x := 1, y := 1, score := 2 }, { x := 2, y := 2, score := 2 }] none
      appleBoard appleBoardAfter rfl (by decide)⟩
